import Mathlib

/-!
Shallow embedding of the core engine of a single-file desktop email client
(`src/main.py`): account/config management, credential vault interaction,
the MIME build/parse paths, the IMAP refresh loop, and the error surface of
the UI handlers.  Pure data transformations are embedded as Lean functions;
the stateful add-account flow is embedded as explicit state passing, with
the possibility of a failing vault backend made an explicit parameter.
-/

namespace MShell

/-- Connection settings stored per account in the JSON config
(`quick_setup` builds this dictionary). -/
structure ConnSettings where
  smtp_server : String
  smtp_port : Nat
  imap_server : String
  imap_port : Nat
deriving DecidableEq

/-- Python dict assignment `d[k] = v` on an insertion-ordered association
list: replace in place if the key exists, otherwise append. -/
def dictSet : List (String × α) → String → α → List (String × α)
  | [], k, v => [(k, v)]
  | (k', v') :: t, k, v =>
    if k' = k then (k, v) :: t else (k', v') :: dictSet t k v

/-- Serialization of one settings dict, standing for `json.dumps` on the
nested account entry. -/
def serializeSettings (s : ConnSettings) : String :=
  "\x7b\"smtp_server\": \"" ++ s.smtp_server ++ "\", \"smtp_port\": " ++
    toString s.smtp_port ++ ", \"imap_server\": \"" ++ s.imap_server ++
    "\", \"imap_port\": " ++ toString s.imap_port ++ "\x7d"

/-- Serialization of the whole config mapping, standing for
`json.dumps(self.config)`. -/
def serializeConfig (accountsKey : Option (List (String × ConnSettings))) : String :=
  match accountsKey with
  | none => "\x7b\x7d"
  | some m =>
    "\x7b\"accounts\": \x7b" ++
      String.intercalate ", "
        (m.map fun a => "\"" ++ a.1 ++ "\": " ++ serializeSettings a.2) ++
      "\x7d\x7d"

/-- The client state relevant to the add-account flow: the in-memory
`self.config` (its optional `accounts` key), the bytes last written to the
config file, the secret store, the pending `self.current_setup` left by
`quick_setup`, and whether the add dialog was accepted. -/
structure ClientState where
  accountsKey : Option (List (String × ConnSettings))
  configFile : Option String
  vault : List (String × String)
  currentSetup : Option ConnSettings
  dialogAccepted : Bool
deriving DecidableEq

/-- `update_account_list` repopulates the selector from
`self.config.get('accounts')` when that value is truthy; the account list a
reader observes is the key list of the in-memory mapping. -/
def listAccounts (st : ClientState) : List String :=
  match st.accountsKey with
  | none => []
  | some m => m.map Prod.fst

/-- `save_config`: one direct `write_text` of the serialized config. -/
def saveConfigState (st : ClientState) : ClientState :=
  { st with configFile := some (serializeConfig st.accountsKey) }

/-- `save_account(dialog, email, password)`.  Returns the state after the
call together with `true` when an exception escaped the handler.
`vaultFails` selects whether `keyring.set_password` raises; when it does,
the statements after it (`save_config`, `dialog.accept`, the refresh) do
not run, but the in-memory config mutation made just before it stays. -/
def save_account (vaultFails : Bool) (st : ClientState)
    (email password : String) : ClientState × Bool :=
  match st.currentSetup with
  | none => (st, false)
  | some setup =>
    match st.accountsKey with
    | none => (st, true)
    | some m =>
      let st1 := { st with accountsKey := some (dictSet m email setup) }
      if vaultFails then (st1, true)
      else
        let st2 := { st1 with vault := dictSet st1.vault email password }
        let st3 := saveConfigState st2
        ({ st3 with dialogAccepted := true }, false)

theorem mem_keys_dictSet (m : List (String × α)) (k : String) (v : α) :
    k ∈ (dictSet m k v).map Prod.fst := by
  induction m with
  | nil => simp [dictSet]
  | cons h t ih =>
    by_cases hk : h.1 = k <;> simp [dictSet, hk, ih]

/-- A fixed provider preset (the Gmail quick-setup tuple). -/
def gmailSetup : ConnSettings :=
  ⟨"smtp.gmail.com", 587, "imap.gmail.com", 993⟩

/-- Concrete pre-save state: fresh config with an empty accounts mapping,
a pending quick-setup, an on-disk file, an empty vault. -/
def c1State : ClientState :=
  { accountsKey := some []
    configFile := some "\x7b\x7d"
    vault := []
    currentSetup := some gmailSetup
    dialogAccepted := false }

/-- Claim C1, counterexample: running `save_account` with a failing vault
backend from `c1State` leaves `alice@example.com` visible in the account
list, contradicting the claim that a subsequent `listAccounts()` does not
include the partially added account. -/
theorem c1_counterexample :
    "alice@example.com" ∈
      listAccounts (save_account true c1State "alice@example.com" "hunter2").1 := by
  decide

/-- Claim C1 (amended): if the vault write fails after the config entry has
been recorded, the entry is not rolled back — a subsequent `listAccounts()`
does include the partially added account — while the on-disk config file
and the vault are left unchanged and the exception escapes. -/
theorem c1_no_rollback (st : ClientState) (email password : String)
    (setup : ConnSettings) (m : List (String × ConnSettings))
    (hs : st.currentSetup = some setup) (hm : st.accountsKey = some m) :
    email ∈ listAccounts (save_account true st email password).1 ∧
    (save_account true st email password).1.configFile = st.configFile ∧
    (save_account true st email password).1.vault = st.vault ∧
    (save_account true st email password).2 = true := by
  simp only [save_account, hs, hm]
  refine ⟨?_, rfl, rfl, rfl⟩
  simpa [listAccounts] using mem_keys_dictSet m email setup

/-- Witness for `c1_no_rollback` at the concrete state `c1State`. -/
theorem c1_no_rollback_witness :
    c1State.currentSetup = some gmailSetup ∧
    c1State.accountsKey = some [] ∧
    ("alice@example.com" ∈
        listAccounts (save_account true c1State "alice@example.com" "hunter2").1 ∧
      (save_account true c1State "alice@example.com" "hunter2").1.configFile =
        c1State.configFile ∧
      (save_account true c1State "alice@example.com" "hunter2").1.vault =
        c1State.vault ∧
      (save_account true c1State "alice@example.com" "hunter2").2 = true) :=
  ⟨rfl, rfl, c1_no_rollback c1State "alice@example.com" "hunter2" gmailSetup []
    rfl rfl⟩

/-- Claim C10: calling `save_account` with no pending `current_setup` is a
no-op — the whole state (in-memory mapping, config file, vault, dialog) is
returned unchanged and no error is raised, for either vault behavior. -/
theorem c10_save_account_noop (vaultFails : Bool) (st : ClientState)
    (email password : String) (h : st.currentSetup = none) :
    save_account vaultFails st email password = (st, false) := by
  simp [save_account, h]

/-- Witness for `c10_save_account_noop` on a concrete state. -/
theorem c10_save_account_noop_witness :
    ({ accountsKey := none, configFile := none, vault := [],
       currentSetup := none, dialogAccepted := false : ClientState }).currentSetup
        = none ∧
    save_account false
        { accountsKey := none, configFile := none, vault := [],
          currentSetup := none, dialogAccepted := false } "a@b" "pw" =
      ({ accountsKey := none, configFile := none, vault := [],
         currentSetup := none, dialogAccepted := false }, false) :=
  ⟨rfl, c10_save_account_noop false _ "a@b" "pw" rfl⟩

/-! ### ConfigStore persistence trace (`save_config`) -/

/-- A primitive file-system effect performed by the config store. -/
inductive FsOp where
  | writeFile (path : String) (content : String)
  | rename (src : String) (dst : String)
deriving DecidableEq

/-- `CONFIG_FILE`, resolved under the given home directory. -/
def configFilePath (home : String) : String :=
  home ++ "/.config/modern-mail/config.json"

/-- The file-system operations performed by one `save_config` call on the
given serialized payload: a single direct `CONFIG_FILE.write_text(...)`. -/
def saveConfigOps (home serialized : String) : List FsOp :=
  [FsOp.writeFile (configFilePath home) serialized]

/-- Recognizer for the write-to-temp-then-rename pattern targeting
`target`: exactly one write to some other path followed by a rename of
that path onto the target. -/
def isTempRenameSave (ops : List FsOp) (target : String) : Bool :=
  match ops with
  | [FsOp.writeFile tmp _, FsOp.rename src dst] =>
    tmp == src && dst == target && tmp != target
  | _ => false

/-- Claim C7, counterexample: a concrete `save_config` run does not follow
the write-to-temp-then-rename pattern the claim asserts of every save. -/
theorem c7_counterexample :
    isTempRenameSave (saveConfigOps "/home/user" "\x7b\x7d")
      (configFilePath "/home/user") = false := by
  decide

/-- Claim C7 (amended): every `save_config` invocation writes the
configuration with a single direct in-place write to the config file — no
temporary file and no rename — so the save is not atomic in the
temp-then-rename sense and a crash mid-write can expose a partial file. -/
theorem c7_save_is_direct_write (home serialized : String) :
    saveConfigOps home serialized =
      [FsOp.writeFile (configFilePath home) serialized] ∧
    isTempRenameSave (saveConfigOps home serialized) (configFilePath home) =
      false := ⟨rfl, rfl⟩

/-! ### Error surface of the UI handlers (`send_email`, `refresh_emails`) -/

/-- The error taxonomy of the specification. -/
inductive ErrKind where
  | configError
  | credentialError
  | connectionError
  | authError
  | protocolError
  | codecError
deriving DecidableEq

/-- A failure as it leaves a core operation: its kind plus the exception
message (`str(e)`). -/
structure CoreError where
  kind : ErrKind
  msg : String
deriving DecidableEq

/-- What `send_email`'s handler surfaces to its caller. -/
inductive SendOutcome where
  | successDialog (title text : String)
  | errorDialog (title text : String)
deriving DecidableEq

/-- The `try/except Exception` wrapper of `send_email`: success shows the
success dialog; every exception, whatever its kind, is caught by the one
broad handler and shown as `QMessageBox.critical` with only the message
string interpolated. -/
def handleSendResult : Except CoreError Unit → SendOutcome
  | .ok _ => .successDialog "Success" "Email sent successfully!"
  | .error e => .errorDialog "Error" ("Failed to send email: " ++ e.msg)

/-- What `refresh_emails`'s handler surfaces: a populated table or a
warning dialog. -/
inductive RefreshOutcome where
  | table (rows : List String)
  | warnDialog (title text : String)
deriving DecidableEq

/-- The `try/except Exception` wrapper of `refresh_emails`: every
exception is caught by the one broad handler and shown as
`QMessageBox.warning` with only the message string interpolated. -/
def handleRefreshResult : Except CoreError (List String) → RefreshOutcome
  | .ok rows => .table rows
  | .error e => .warnDialog "Error" ("Failed to fetch emails: " ++ e.msg)

/-- Claim C6, counterexample: an auth failure and a connection failure
with the same exception message surface as the very same outcome, so the
surfaced result does not preserve the error kind. -/
theorem c6_counterexample :
    handleSendResult (.error ⟨ErrKind.authError, "timed out"⟩) =
      handleSendResult (.error ⟨ErrKind.connectionError, "timed out"⟩) ∧
    decide (ErrKind.authError = ErrKind.connectionError) = false :=
  ⟨rfl, rfl⟩

/-- Claim C6 (amended): the send and refresh operations funnel every
failure kind through one broad catch-all; the surfaced outcome depends
only on the exception's message string, so distinct failure kinds with the
same message are indistinguishable to the caller. -/
theorem c6_broad_catch_all (e₁ e₂ : CoreError) (h : e₁.msg = e₂.msg) :
    handleSendResult (.error e₁) = handleSendResult (.error e₂) ∧
    handleRefreshResult (.error e₁) = handleRefreshResult (.error e₂) := by
  simp [handleSendResult, handleRefreshResult, h]

/-- Witness for `c6_broad_catch_all` at concrete distinct error kinds. -/
theorem c6_broad_catch_all_witness :
    (CoreError.mk ErrKind.authError "boom").msg =
      (CoreError.mk ErrKind.connectionError "boom").msg ∧
    (handleSendResult (.error ⟨ErrKind.authError, "boom"⟩) =
        handleSendResult (.error ⟨ErrKind.connectionError, "boom"⟩) ∧
      handleRefreshResult (.error ⟨ErrKind.authError, "boom"⟩) =
        handleRefreshResult (.error ⟨ErrKind.connectionError, "boom"⟩)) :=
  ⟨rfl, c6_broad_catch_all ⟨ErrKind.authError, "boom"⟩
    ⟨ErrKind.connectionError, "boom"⟩ rfl⟩

/-! ### IMAP refresh (`refresh_emails`) -/

/-- Whether `hay` begins with `needle`, over character lists. -/
def beginsWith : List Char → List Char → Bool
  | _, [] => true
  | [], _ :: _ => false
  | a :: as, b :: bs => a == b && beginsWith as bs

/-- Whether `needle` occurs contiguously inside `hay`: the semantics of
Python's `needle in hay` on strings, over character lists. -/
def hasSub : List Char → List Char → Bool
  | [], n => beginsWith [] n
  | a :: t, n => beginsWith (a :: t) n || hasSub t n

/-- `"\Seen" in resp`: the read-flag test `refresh_emails` applies to the
decoded FLAGS fetch response line. -/
def isRead (resp : String) : Bool :=
  hasSub resp.data "\\Seen".data

/-- `" ".join(flags)`-style joining of the flag atoms, as they appear
inside the server's FLAGS response. -/
def joinFlags : List String → String
  | [] => ""
  | [f] => f
  | f :: g :: fs => f ++ " " ++ joinFlags (g :: fs)

/-- The decoded FLAGS fetch response line for a message carrying the given
flag atoms, e.g. `(FLAGS (\Seen \Answered))`. -/
def renderFlags (flags : List String) : String :=
  "(FLAGS (" ++ joinFlags flags ++ "))"

theorem beginsWith_self (l : List Char) : beginsWith l l = true := by
  induction l with
  | nil => rfl
  | cons a t ih => simp [beginsWith, ih]

theorem hasSub_self (l : List Char) : hasSub l l = true := by
  cases l with
  | nil => rfl
  | cons a t => simp [hasSub, beginsWith_self]

theorem beginsWith_append (l post n : List Char)
    (h : beginsWith l n = true) : beginsWith (l ++ post) n = true := by
  induction n generalizing l with
  | nil => simp [beginsWith]
  | cons b bs ih =>
    cases l with
    | nil => simp [beginsWith] at h
    | cons a as =>
      simp only [beginsWith, Bool.and_eq_true] at h
      simp only [List.cons_append, beginsWith, Bool.and_eq_true]
      exact ⟨h.1, ih as h.2⟩

theorem hasSub_nil_right (l : List Char) : hasSub l [] = true := by
  cases l <;> simp [hasSub, beginsWith]

theorem hasSub_append_left (l post n : List Char)
    (h : hasSub l n = true) : hasSub (l ++ post) n = true := by
  cases n with
  | nil => exact hasSub_nil_right _
  | cons b bs =>
    induction l with
    | nil => simp [hasSub, beginsWith] at h
    | cons a t ih =>
      simp only [hasSub, Bool.or_eq_true] at h
      simp only [List.cons_append, hasSub, Bool.or_eq_true]
      rcases h with h | h
      · exact Or.inl (beginsWith_append _ post _ h)
      · exact Or.inr (ih h)

theorem hasSub_append_right (l post n : List Char)
    (h : hasSub post n = true) : hasSub (l ++ post) n = true := by
  induction l with
  | nil => simpa using h
  | cons a t ih =>
    simp only [List.cons_append, hasSub, Bool.or_eq_true]
    exact Or.inr ih

theorem hasSub_joinFlags (fs : List String) (x : String) (hx : x ∈ fs) :
    hasSub (joinFlags fs).data x.data = true := by
  induction fs with
  | nil => cases hx
  | cons f t ih =>
    cases t with
    | nil =>
      have hf : x = f := List.mem_singleton.mp hx
      subst hf
      exact hasSub_self x.data
    | cons g u =>
      rcases List.mem_cons.mp hx with hx | hx
      · subst hx
        show hasSub (x ++ " " ++ joinFlags (g :: u)).data x.data = true
        rw [String.data_append, String.data_append]
        rw [List.append_assoc]
        exact hasSub_append_left _ _ _ (hasSub_self x.data)
      · show hasSub (f ++ " " ++ joinFlags (g :: u)).data x.data = true
        rw [String.data_append]
        exact hasSub_append_right _ _ _ (ih hx)

/-- Claim C5, counterexample: a message whose only flag atom is `\Seen2`
— which does not contain the `\Seen` marker — is still classified as read,
because the code tests substring containment on the whole decoded
response line. -/
theorem c5_counterexample :
    isRead (renderFlags ["\\Seen2"]) = true ∧
    decide ("\\Seen" ∈ ["\\Seen2"]) = false := ⟨by decide, by decide⟩

/-- Claim C5 (amended): the read flag is computed from the FLAGS fetch
response alone, as substring containment of `\Seen` in the decoded line;
whenever the flag list does contain the `\Seen` marker the flag is true,
but it can also be true for a flag list merely containing `\Seen` as a
proper substring of another atom. -/
theorem c5_seen_marker_read (flags : List String)
    (h : "\\Seen" ∈ flags) : isRead (renderFlags flags) = true := by
  show hasSub ("(FLAGS (" ++ joinFlags flags ++ "))").data "\\Seen".data = true
  rw [String.data_append, String.data_append]
  exact hasSub_append_left _ _ _
    (hasSub_append_right _ _ _ (hasSub_joinFlags flags _ h))

/-- Witness for `c5_seen_marker_read` at a concrete flag list. -/
theorem c5_seen_marker_read_witness :
    "\\Seen" ∈ ["\\Answered", "\\Seen"] ∧
    isRead (renderFlags ["\\Answered", "\\Seen"]) = true :=
  ⟨by decide, c5_seen_marker_read ["\\Answered", "\\Seen"] (by decide)⟩

/-- A message as fetched over IMAP: the headers `refresh_emails` reads and
the flag atoms of the FLAGS fetch.  The date is kept abstract (the
`parsedate`/`format_datetime` round trip of the standard library is not
modelled). -/
structure Msg where
  subjectH : Option String
  fromH : Option String
  dateH : String
  flags : List String
deriving DecidableEq

/-- `email_msg['subject'] or "(No Subject)"`: Python's `or` falls through
to the default when the header is absent (`None`) or the empty string. -/
def displaySubject : Option String → String
  | none => "(No Subject)"
  | some s => if s = "" then "(No Subject)" else s

/-- One row of the email table (`emails.append({...})`); `sender` is the
dictionary's `'from'` entry. -/
structure Summary where
  id : Nat
  read : Bool
  status : String
  date : String
  sender : Option String
  subject : String
deriving DecidableEq

/-- The summary `refresh_emails` builds for sequence number `n`. -/
def mkSummary (n : Nat) (m : Msg) : Summary :=
  { id := n
    read := isRead (renderFlags m.flags)
    status := if isRead (renderFlags m.flags) then "📨" else "📩"
    date := m.dateH
    sender := m.fromH
    subject := displaySubject m.subjectH }

@[simp] theorem mkSummary_id (n : Nat) (m : Msg) : (mkSummary n m).id = n := rfl

/-- Python slice `l[-20:]`. -/
def lastN (n : Nat) (l : List α) : List α := l.drop (l.length - n)

/-- The ids returned by `SEARCH ALL` on a mailbox of `mb.length` messages:
sequence numbers `1 .. N` in ascending order. -/
def searchAllIds (mb : List Msg) : List Nat := List.range' 1 mb.length

/-- Placeholder used for an out-of-range fetch; never reached for ids
produced by `searchAllIds`. -/
def defaultMsg : Msg := ⟨none, none, "", []⟩

/-- `imap.fetch(num, "(RFC822)")` for sequence number `n`. -/
def fetchMsg (mb : List Msg) (n : Nat) : Msg := mb.getD (n - 1) defaultMsg

/-- The `emails` list built by the fetch loop: one summary per id in
`messages[0].split()[-20:]`, in ascending id order. -/
def refreshEmails (mb : List Msg) : List Summary :=
  (lastN 20 (searchAllIds mb)).map fun n => mkSummary n (fetchMsg mb n)

/-- The table rows as displayed: `for i, data in enumerate(reversed(emails))`. -/
def displayedRows (mb : List Msg) : List Summary := (refreshEmails mb).reverse

theorem displayedRows_map_id (mb : List Msg) :
    (displayedRows mb).map Summary.id = (lastN 20 (searchAllIds mb)).reverse := by
  simp [displayedRows, refreshEmails, List.map_reverse, List.map_map,
    Function.comp_def]

theorem getLast?_lastN_range' (n : Nat) (h : 0 < n) :
    (lastN 20 (List.range' 1 n)).getLast? = some n := by
  obtain ⟨m, rfl⟩ : ∃ m, n = m + 1 := ⟨n - 1, by omega⟩
  rw [List.range'_concat]
  unfold lastN
  rw [List.length_append]
  simp only [List.length_range', List.length_singleton]
  rw [List.drop_append_of_le_length (by simp [List.length_range'])]
  rw [List.getLast?_concat]
  congr 1
  omega

/-- Claim C2: one refresh over a mailbox of `N` messages yields exactly
`min N 20` rows, whose ids are the last 20 ids of `SEARCH ALL` (which were
fetched in ascending order) reversed, so that the first displayed row
carries the highest sequence number fetched. -/
theorem c2_fetch_bound (mb : List Msg) :
    (displayedRows mb).length = min mb.length 20 ∧
    (displayedRows mb).map Summary.id = (lastN 20 (searchAllIds mb)).reverse ∧
    (0 < mb.length →
      (displayedRows mb).head?.map Summary.id = some mb.length) := by
  refine ⟨?_, displayedRows_map_id mb, ?_⟩
  · simp [displayedRows, refreshEmails, lastN, searchAllIds]
    omega
  · intro h
    rw [← List.head?_map, displayedRows_map_id, List.head?_reverse]
    exact getLast?_lastN_range' mb.length h

/-- A concrete fetched message used by witnesses. -/
def sampleMsg (s : String) : Msg :=
  ⟨some s, some "carol@example.com", "Mon, 1 Jan 2024 00:00:00 +0000",
    ["\\Seen"]⟩

/-- A concrete three-message mailbox. -/
def mb3 : List Msg := [sampleMsg "a", sampleMsg "b", sampleMsg "c"]

/-- Witness for `c2_fetch_bound` on the three-message mailbox. -/
theorem c2_fetch_bound_witness :
    0 < mb3.length ∧
    (displayedRows mb3).head?.map Summary.id = some mb3.length :=
  ⟨by decide, (c2_fetch_bound mb3).2.2 (by decide)⟩

/-- Claim C9: a summary's subject is the literal `"(No Subject)"` when the
Subject header is absent or empty, and the header verbatim otherwise. -/
theorem c9_subject_default (n : Nat) (m : Msg) :
    ((m.subjectH = none ∨ m.subjectH = some "") →
      (mkSummary n m).subject = "(No Subject)") ∧
    (∀ s, m.subjectH = some s → 0 < s.length → (mkSummary n m).subject = s) := by
  constructor
  · rintro (h | h) <;> simp [mkSummary, displaySubject, h]
  · intro s hs hl
    have hne : ¬s = "" := by
      intro e
      subst e
      simp at hl
    simp [mkSummary, displaySubject, hs, hne]

/-- Witness for `c9_subject_default` on a concrete message. -/
theorem c9_subject_default_witness :
    (sampleMsg "Hi").subjectH = some "Hi" ∧ 0 < "Hi".length ∧
    (mkSummary 1 (sampleMsg "Hi")).subject = "Hi" :=
  ⟨rfl, by decide,
    (c9_subject_default 1 (sampleMsg "Hi")).2 "Hi" rfl (by decide)⟩

/-! ### MessageCodec: the MIME build (`send_email`) and parse
(`view_email`) paths -/

/-- A MIME entity: either a simple part (content type, optional
Content-Disposition value, optional filename parameter, decoded payload)
or a multipart container. -/
inductive MimePart where
  | leaf (maintype subtype : String) (disposition filename : Option String)
      (payload : String)
  | multipart (subtype : String) (parts : List MimePart)

mutual
/-- `Message.walk()`: depth-first traversal yielding the entity itself
first, then every subpart recursively. -/
def walk : MimePart → List MimePart
  | .leaf mt st d fn p => [.leaf mt st d fn p]
  | .multipart st ps => .multipart st ps :: walkList ps
/-- Traversal of a subpart list, in part order. -/
def walkList : List MimePart → List MimePart
  | [] => []
  | p :: ps => walk p ++ walkList ps
end

/-- `get_content_maintype()`. -/
def mainTypeOf : MimePart → String
  | .leaf mt _ _ _ _ => mt
  | .multipart _ _ => "multipart"

/-- `get_content_type()`. -/
def contentTypeOf : MimePart → String
  | .leaf mt st _ _ _ => mt ++ "/" ++ st
  | .multipart st _ => "multipart/" ++ st

/-- `get('Content-Disposition')`. -/
def dispositionOf : MimePart → Option String
  | .leaf _ _ d _ _ => d
  | .multipart _ _ => none

/-- `get_filename()`. -/
def filenameOf : MimePart → Option String
  | .leaf _ _ _ fn _ => fn
  | .multipart _ _ => none

/-- `get_payload(decode=True).decode()`; a multipart container has no
decodable payload (the body-extraction loop never reaches this case,
since a container's content type is never `text/plain`). -/
def payloadOf : MimePart → String
  | .leaf _ _ _ _ p => p
  | .multipart _ _ => ""

/-- The loop guard `part.get_content_type() == "text/plain"`. -/
def isTextPlain (p : MimePart) : Bool := contentTypeOf p == "text/plain"

/-- Python truthiness of `part.get('Content-Disposition')`: `None` and the
empty string are falsy. -/
def dispositionTruthy (p : MimePart) : Bool :=
  match dispositionOf p with
  | none => false
  | some s => s != ""

/-- The attachment guard of `view_email`:
`part.get_content_maintype() != 'multipart' and part.get('Content-Disposition')`. -/
def attachCond (p : MimePart) : Bool :=
  (mainTypeOf p != "multipart") && dispositionTruthy p

/-- The body-extraction loop: `body = ""` then scan the walk, taking the
payload of the first `text/plain` part and breaking. -/
def firstTextPlainBody : List MimePart → String
  | [] => ""
  | p :: ps => if isTextPlain p then payloadOf p else firstTextPlainBody ps

/-- The attachment loop: append `get_filename()` for every part passing
the attachment guard, in walk order. -/
def collectAttachments : List MimePart → List (Option String)
  | [] => []
  | p :: ps =>
    if attachCond p then filenameOf p :: collectAttachments ps
    else collectAttachments ps

/-- Body of a fetched message: the first-`text/plain` scan when the
message is multipart, the whole decoded payload otherwise. -/
def extractBody : MimePart → String
  | .multipart st ps => firstTextPlainBody (walk (.multipart st ps))
  | .leaf _ _ _ _ p => p

/-- Attachment filenames of a fetched message: collected over the walk
when the message is multipart, none otherwise. -/
def extractAttachments : MimePart → List (Option String)
  | .multipart st ps => collectAttachments (walk (.multipart st ps))
  | .leaf _ _ _ _ _ => []

/-- A full message: top-level headers plus the MIME content tree. -/
structure MimeMessage where
  headers : List (String × String)
  content : MimePart

/-- Header lookup (`email_msg['Subject']`). -/
def getHeader (hs : List (String × String)) (k : String) : Option String :=
  (hs.find? fun h => h.1 == k).map Prod.snd

/-- The view produced by `view_email`: subject header, extracted body,
recorded attachment filenames. -/
structure MessageDetail where
  subjectH : Option String
  body : String
  attachmentFilenames : List (Option String)

/-- The parse path of `view_email` as one function. -/
def parseMessage (m : MimeMessage) : MessageDetail :=
  { subjectH := getHeader m.headers "Subject"
    body := extractBody m.content
    attachmentFilenames := extractAttachments m.content }

/-- The `Content-Disposition` value `send_email` attaches:
`attachment; filename="<name>"`. -/
def attachDisposition (name : String) : String :=
  "attachment; filename=\"" ++ name ++ "\""

/-- One attachment part as built by `send_email`: a base64-encoded
`application/octet-stream` part (the transfer encoding is a bijective
framing and is abstracted away; `payload` holds the decoded bytes). -/
def mkAttachmentPart (a : String × String) : MimePart :=
  .leaf "application" "octet-stream" (some (attachDisposition a.1))
    (some a.1) a.2

/-- The compose path of `send_email`: a `MIMEMultipart` carrying From, To
and Subject headers, a `MIMEText` body part, then one part per
attachment. -/
def buildMessage (sender rcpt subject body : String)
    (atts : List (String × String)) : MimeMessage :=
  { headers := [("From", sender), ("To", rcpt), ("Subject", subject)]
    content := .multipart "mixed"
      (.leaf "text" "plain" none none body :: atts.map mkAttachmentPart) }

theorem attachDisposition_ne (n : String) : attachDisposition n ≠ "" := by
  intro h
  have hlen := congrArg String.length h
  rw [attachDisposition, String.length_append, String.length_append] at hlen
  have h1 : ("attachment; filename=\"" : String).length = 22 := rfl
  have h2 : ("\"" : String).length = 1 := rfl
  have h3 : ("" : String).length = 0 := rfl
  rw [h1, h2, h3] at hlen
  omega

theorem walkList_attachParts (atts : List (String × String)) :
    walkList (atts.map mkAttachmentPart) = atts.map mkAttachmentPart := by
  induction atts with
  | nil => rfl
  | cons a t ih => simp [walkList, walk, mkAttachmentPart, ih]

theorem collectAttachments_attachParts (atts : List (String × String)) :
    collectAttachments (atts.map mkAttachmentPart) =
      atts.map fun a => some a.1 := by
  induction atts with
  | nil => rfl
  | cons a t ih =>
    have hc : attachCond (.leaf "application" "octet-stream"
        (some (attachDisposition a.1)) (some a.1) a.2) = true := by
      simp [attachCond, mainTypeOf, dispositionTruthy,
        dispositionOf, bne_iff_ne, attachDisposition_ne a.1]
    simp [collectAttachments, mkAttachmentPart, hc, ih, filenameOf]

/-- Claim C3: parsing the message built by the compose path recovers the
subject, the body text, and exactly the attachment filenames supplied. -/
theorem c3_build_parse_roundtrip (sender rcpt subject body : String)
    (atts : List (String × String)) :
    (parseMessage (buildMessage sender rcpt subject body atts)).subjectH =
      some subject ∧
    (parseMessage (buildMessage sender rcpt subject body atts)).body = body ∧
    (parseMessage (buildMessage sender rcpt subject body atts)).attachmentFilenames =
      atts.map (fun a => some a.1) := by
  refine ⟨?_, ?_, ?_⟩
  · simp [parseMessage, buildMessage, getHeader, List.find?]
  · show firstTextPlainBody (walk (.multipart "mixed" _)) = body
    rw [walk, walkList]
    show firstTextPlainBody
      (.multipart "mixed" _ :: (walk (.leaf "text" "plain" none none body) ++
        walkList (atts.map mkAttachmentPart))) = body
    rw [walk]
    simp [firstTextPlainBody, isTextPlain, contentTypeOf, payloadOf]
  · show collectAttachments (walk (.multipart "mixed" _)) =
      atts.map fun a => some a.1
    rw [walk, walkList]
    show collectAttachments
      (.multipart "mixed" _ :: (walk (.leaf "text" "plain" none none body) ++
        walkList (atts.map mkAttachmentPart))) = atts.map fun a => some a.1
    rw [walk, walkList_attachParts]
    have h1 : attachCond (.multipart "mixed"
        (.leaf "text" "plain" none none body :: atts.map mkAttachmentPart)) =
        false := by
      simp [attachCond, mainTypeOf]
    have h2 : attachCond (.leaf "text" "plain" none none body) = false := by
      simp [attachCond, dispositionTruthy, dispositionOf]
    simp [collectAttachments, h1, h2, collectAttachments_attachParts]

theorem firstTextPlainBody_of_find?_some (l : List MimePart) (p : MimePart)
    (h : l.find? isTextPlain = some p) :
    firstTextPlainBody l = payloadOf p := by
  induction l with
  | nil => simp [List.find?] at h
  | cons a t ih =>
    by_cases ha : isTextPlain a
    · rw [List.find?_cons_of_pos _ ha] at h
      cases h
      simp [firstTextPlainBody, ha]
    · rw [List.find?_cons_of_neg _ ha] at h
      simp only [firstTextPlainBody, ha, Bool.false_eq_true, if_false]
      exact ih h

theorem firstTextPlainBody_of_find?_none (l : List MimePart)
    (h : l.find? isTextPlain = none) : firstTextPlainBody l = "" := by
  induction l with
  | nil => rfl
  | cons a t ih =>
    rw [List.find?_cons] at h
    cases ha : isTextPlain a with
    | true => rw [ha] at h; cases h
    | false =>
      rw [ha] at h
      simp only [firstTextPlainBody, ha, Bool.false_eq_true, if_false]
      exact ih h

theorem collectAttachments_eq_filter (l : List MimePart) :
    collectAttachments l = (l.filter attachCond).map filenameOf := by
  induction l with
  | nil => rfl
  | cons a t ih =>
    cases ha : attachCond a <;>
      simp [collectAttachments, List.filter_cons, ha, ih]

/-- The claim's attachment policy, taken at its words: every walked part
whose main content type is not `multipart` and which carries a
Content-Disposition header (present, whatever its value) is an
attachment. -/
def claimedAttachments (m : MimePart) : List (Option String) :=
  ((walk m).filter fun p =>
    (mainTypeOf p != "multipart") && (dispositionOf p).isSome).map filenameOf

/-- A multipart message whose single part carries a `Content-Disposition`
header with an empty value. -/
def c4cex : MimePart :=
  .multipart "mixed"
    [.leaf "application" "octet-stream" (some "") (some "data.bin") "zz"]

/-- Claim C4, counterexample: the part of `c4cex` carries a
Content-Disposition header and is not multipart, so the claim records its
filename, but the code tests the header value for Python truthiness and
skips it — the parsed attachment list is empty. -/
theorem c4_counterexample :
    extractAttachments c4cex = [] ∧
    claimedAttachments c4cex = [some "data.bin"] := ⟨rfl, rfl⟩

/-- Claim C4 (amended): for every multipart message, the body is the
payload of the first walked part whose content type is `text/plain` (the
empty string if none exists), and the attachments are exactly the walked
parts whose main content type is not `multipart` and whose
Content-Disposition header is present with a non-empty value, with their
filenames recorded in walk order. -/
theorem c4_parse_policy (st : String) (ps : List MimePart) :
    (∀ p, (walk (.multipart st ps)).find? isTextPlain = some p →
      extractBody (.multipart st ps) = payloadOf p) ∧
    ((walk (.multipart st ps)).find? isTextPlain = none →
      extractBody (.multipart st ps) = "") ∧
    extractAttachments (.multipart st ps) =
      ((walk (.multipart st ps)).filter attachCond).map filenameOf := by
  refine ⟨?_, ?_, ?_⟩
  · intro p hp
    rw [extractBody]
    exact firstTextPlainBody_of_find?_some _ _ hp
  · intro hn
    rw [extractBody]
    exact firstTextPlainBody_of_find?_none _ hn
  · rw [extractAttachments]
    exact collectAttachments_eq_filter _

/-- A concrete `multipart/alternative` message with a `text/plain` part. -/
def c4wit : MimePart :=
  .multipart "alternative"
    [.leaf "text" "plain" none none "hello",
     .leaf "text" "html" none none "<p>hello</p>"]

/-- Witness for `c4_parse_policy` on `c4wit`. -/
theorem c4_parse_policy_witness :
    (walk c4wit).find? isTextPlain =
      some (.leaf "text" "plain" none none "hello") ∧
    extractBody c4wit = "hello" ∧
    extractAttachments c4wit =
      ((walk c4wit).filter attachCond).map filenameOf :=
  ⟨rfl,
    (c4_parse_policy "alternative"
      [.leaf "text" "plain" none none "hello",
       .leaf "text" "html" none none "<p>hello</p>"]).1
      (.leaf "text" "plain" none none "hello") rfl,
    (c4_parse_policy "alternative"
      [.leaf "text" "plain" none none "hello",
       .leaf "text" "html" none none "<p>hello</p>"]).2.2⟩

end MShell
